import Mathlib

/-!
Verification of the voice-assistant command core: a shallow embedding of the
safety gate (`don/safety.py`), intent parser (`don/intent_parser.py`),
command executor (`don/executor.py`), time-expression parser
(`don/time_parse.py`), scheduler (`don/scheduler.py`) and the memory store
(`core/memory.py`, `don/memory_manager.py`), together with theorems settling
the specification's claims about them.

Strings are modelled through their character lists (`String.data`); the
Python regular expressions used by the source are embedded as bespoke
executable scanners that reproduce the leftmost-match / greedy-with-
backtracking semantics of the concrete patterns appearing in the code.
-/

namespace Don

/-! ## Character and string helpers (Python `str` semantics, ASCII inputs) -/

/-- Python `\w`: alphanumeric or underscore. -/
def isWordChar (c : Char) : Bool := c.isAlphanum || c == '_'

/-- Python `\s` / `str.strip()` whitespace (ASCII subset). -/
def isPySpace (c : Char) : Bool :=
  c == ' ' || c == '\t' || c == '\n' || c == '\r' || c == '\x0b' || c == '\x0c'

/-- Python `str.lower()` on one character (ASCII). -/
def lowerChar (c : Char) : Char :=
  if 'A' ≤ c ∧ c ≤ 'Z' then Char.ofNat (c.toNat + 32) else c

/-- Python `str.lower()`. -/
def pyLower (l : List Char) : List Char := l.map lowerChar

/-- Python `str.strip()`: drop whitespace from both ends. -/
def pyStrip (l : List Char) : List Char :=
  ((l.dropWhile isPySpace).reverse.dropWhile isPySpace).reverse

/-- Python `str.strip(" ,.")` as used on the extracted contact group. -/
def isKoStripChar (c : Char) : Bool := c == ' ' || c == ',' || c == '.'

def pyStripKo (l : List Char) : List Char :=
  ((l.dropWhile isKoStripChar).reverse.dropWhile isKoStripChar).reverse

/-- List prefix test. -/
def isPrefixL : List Char → List Char → Bool
  | [], _ => true
  | _ :: _, [] => false
  | a :: as, b :: bs => a == b && isPrefixL as bs

/-- Case-insensitive prefix test: the needle is given lowercased. -/
def isPrefixCI : List Char → List Char → Bool
  | [], _ => true
  | _ :: _, [] => false
  | a :: as, b :: bs => a == lowerChar b && isPrefixCI as bs

/-- Python `needle in haystack` substring containment. -/
def containsSub : List Char → List Char → Bool
  | n, [] => isPrefixL n []
  | n, c :: t => isPrefixL n (c :: t) || containsSub n t

def containsAny (l : List Char) (kws : List (List Char)) : Bool :=
  kws.any (fun k => containsSub k l)

/-! ## Safety gate — `don/safety.py` -/

/-- The two environment variables the safety gate reads; `none` = unset. -/
structure SafetyEnv where
  sim : Option String
  confirm : Option String
deriving Repr, DecidableEq

/-- Embeds `os.getenv(name, default)`. -/
def getenvD (v : Option String) (d : String) : String := v.getD d

/-- Source `is_simulation_mode`: `os.getenv("SIMULATION_MODE", "true").strip().lower()`
    is in `{"1","true","t","yes","y"}`. -/
def is_simulation_mode (e : SafetyEnv) : Bool :=
  let val := String.mk (pyLower (pyStrip (getenvD e.sim "true").data))
  val = "1" || val = "true" || val = "t" || val = "yes" || val = "y"

/-- Source `is_confirmed`: `os.getenv("CONFIRM", "no").strip().lower()` is in
    `{"1","true","t","yes","y","ok"}`. -/
def is_confirmed (e : SafetyEnv) : Bool :=
  let val := String.mk (pyLower (pyStrip (getenvD e.confirm "no").data))
  val = "1" || val = "true" || val = "t" || val = "yes" || val = "y" || val = "ok"

/-- Source `require_confirmation(action_description)`: simulation mode forces `False`;
    otherwise `False` unless confirmed.  The body of the Python function cannot
    raise (it only reads the two flags and logs), so the trailing
    `except Exception: return False` is dead and not modelled. -/
def require_confirmation (e : SafetyEnv) (action_description : String) : Bool :=
  if is_simulation_mode e then false
  else if !is_confirmed e then false
  else true

/-! ## Regex scanners

Each Python regular expression appearing in the source is embedded as a
scanner over `List Char` reproducing `re.search` semantics for that concrete
pattern: the leftmost starting position wins, alternatives are tried in
order, and greedy quantifiers backtrack where that can matter. -/

/-- A matcher tries a pattern at the current position and returns
    `(matched text, remainder)` on success. -/
abbrev Matcher := List Char → Option (List Char × List Char)

/-- Matches a literal. -/
def litM (a : List Char) : Matcher := fun s =>
  if isPrefixL a s then some (a, s.drop a.length) else none

/-- Matches `a\s*b` (two literals separated by optional whitespace).  The
    maximal-munch gap needs no backtracking because `b` starts with a
    non-space character in every pattern using this. -/
def gapM (a b : List Char) : Matcher := fun s =>
  match litM a s with
  | none => none
  | some (_, r) =>
    let sp := r.takeWhile isPySpace
    let r2 := r.dropWhile isPySpace
    match litM b r2 with
    | none => none
    | some (_, r3) => some (a ++ sp ++ b, r3)

/-- Matches `vs\s?code`: greedy, so one whitespace character is tried
    before none. -/
def vsCodeM : Matcher := fun s =>
  match litM ("vs".data) s with
  | none => none
  | some (_, r) =>
    match r with
    | c :: t =>
      if isPySpace c then
        match litM ("code".data) t with
        | some (_, r2) => some ("vs".data ++ [c] ++ "code".data, r2)
        | none =>
          match litM ("code".data) r with
          | some (_, r2) => some ("vscode".data, r2)
          | none => none
      else
        match litM ("code".data) r with
        | some (_, r2) => some ("vscode".data, r2)
        | none => none
    | [] => none

/-- Word boundary `\b` immediately before a word character: previous
    character absent or not a word character. -/
def boundaryBeforeOk (prev : Option Char) : Bool :=
  match prev with
  | none => true
  | some c => !isWordChar c

/-- Word boundary `\b` immediately after a word character: next character
    absent or not a word character. -/
def nonWordNext : List Char → Bool
  | [] => true
  | c :: _ => !isWordChar c

/-- Tries the alternatives (in order) at one position of a `\b(...)\b`
    pattern; every alternative starts and ends with a word character. -/
def tryAtB (pats : List Matcher) (prev : Option Char) (s : List Char) :
    Option (List Char) :=
  if boundaryBeforeOk prev then
    pats.findSome? (fun p =>
      match p s with
      | some (m, r) => if nonWordNext r then some m else none
      | none => none)
  else none

/-- Leftmost search for `\b(alt1|alt2|...)\b`; returns the matched text. -/
def searchWordB (pats : List Matcher) : Option Char → List Char → Option (List Char)
  | prev, [] => tryAtB pats prev []
  | prev, c :: t =>
    match tryAtB pats prev (c :: t) with
    | some m => some m
    | none => searchWordB pats (some c) t

/-- Leftmost search without word boundaries; returns the matched text. -/
def searchNoB (pats : List Matcher) : List Char → Option (List Char)
  | [] => pats.findSome? (fun p => (p []).map Prod.fst)
  | c :: t =>
    match pats.findSome? (fun p => (p (c :: t)).map Prod.fst) with
    | some m => some m
    | none => searchNoB pats t

/-! ## Intent parser — `don/intent_parser.py` -/

/-- Wake-word stripping: `WAKE_WORDS = ("hey don", "don,", "don ", " don")`,
    first matching literal prefix is removed and the rest re-stripped. -/
def wakeStrip (l : List Char) : List Char :=
  if isPrefixL ("hey don".data) l then pyStrip (l.drop 7)
  else if isPrefixL ("don,".data) l then pyStrip (l.drop 4)
  else if isPrefixL ("don ".data) l then pyStrip (l.drop 4)
  else if isPrefixL (" don".data) l then pyStrip (l.drop 4)
  else l

/-- WhatsApp-send test: `"whatsapp" in lower` and one of the send verbs is a
    substring. -/
def waSendCond (l : List Char) : Bool :=
  containsSub ("whatsapp".data) l &&
    (containsSub ("msg".data) l || containsSub ("message".data) l ||
     containsSub ("bolo".data) l || containsSub ("kaho".data) l ||
     containsSub ("karo".data) l || containsSub ("kro".data) l)

/-- Regex `\b(remind|reminder|uthana|yaad\s*rakhna|schedule)\b`. -/
def schedCond (l : List Char) : Bool :=
  (searchWordB
    [litM ("remind".data), litM ("reminder".data), litM ("uthana".data),
     gapM ("yaad".data) ("rakhna".data), litM ("schedule".data)] none l).isSome

/-- Regex `\berror\b`. -/
def errCond (l : List Char) : Bool :=
  (searchWordB [litM ("error".data)] none l).isSome

/-- Regex `\bweb\b` (channel hint). -/
def webWordCond (l : List Char) : Bool :=
  (searchWordB [litM ("web".data)] none l).isSome

/-- Regex `\b(ali|ahmad|bilal|zara|fatima|hassan|usman)\b` for the contact
    roster; returns the matched name. -/
def nameSearch (l : List Char) : Option (List Char) :=
  searchWordB
    [litM ("ali".data), litM ("ahmad".data), litM ("bilal".data),
     litM ("zara".data), litM ("fatima".data), litM ("hassan".data),
     litM ("usman".data)] none l

/-- Characters of the `[\w\.\-]+` contact group. -/
def isKoGroupChar (c : Char) : Bool := isWordChar c || c == '.' || c == '-'

/-- Attempts `\bko\s+([\w\.\-]+)` at one position. -/
def tryKoAt (prev : Option Char) (s : List Char) : Option (List Char) :=
  if boundaryBeforeOk prev then
    match litM ("ko".data) s with
    | some (_, r) =>
      if (r.takeWhile isPySpace).isEmpty then none
      else
        let g := (r.dropWhile isPySpace).takeWhile isKoGroupChar
        if g.isEmpty then none else some g
    | none => none
  else none

/-- Leftmost search for `\bko\s+([\w\.\-]+)`; returns the captured group. -/
def searchKo : Option Char → List Char → Option (List Char)
  | prev, [] => tryKoAt prev []
  | prev, c :: t =>
    match tryKoAt prev (c :: t) with
    | some g => some g
    | none => searchKo (some c) t

/-- Regex `\"([^\"]+)\"|'([^']+)'` applied to the raw text: leftmost quoted
    span (double quotes tried before single at each position); returns the
    span body. -/
def dquoteC : Char := Char.ofNat 34

def squoteC : Char := Char.ofNat 39

def searchQuoted : List Char → Option (List Char)
  | [] => none
  | c :: t =>
    if c == dquoteC then
      let body := t.takeWhile (fun x => x ≠ dquoteC)
      match t.dropWhile (fun x => x ≠ dquoteC) with
      | q :: _ => if q == dquoteC && !body.isEmpty then some body else searchQuoted t
      | _ => searchQuoted t
    else if c == squoteC then
      let body := t.takeWhile (fun x => x ≠ squoteC)
      match t.dropWhile (fun x => x ≠ squoteC) with
      | q :: _ => if q == squoteC && !body.isEmpty then some body else searchQuoted t
      | _ => searchQuoted t
    else searchQuoted t

/-- Attempts `(?:msg|message|bolo|kaho|kro|karo)\s+(.*)$` (case-insensitive,
    no word boundaries) at one position of the raw text; the greedy `\s+`
    leaves the capture starting at the first non-space character.  Inputs are
    single-line, so `$` is the end of the string. -/
def tryMsgAt (s : List Char) : Option (List Char) :=
  ["msg".data, "message".data, "bolo".data, "kaho".data, "kro".data,
   "karo".data].findSome? (fun kw =>
    if isPrefixCI kw s then
      let r := s.drop kw.length
      if (r.takeWhile isPySpace).isEmpty then none
      else some (r.dropWhile isPySpace)
    else none)

/-- Leftmost search for the unquoted-message pattern. -/
def msgTail : List Char → Option (List Char)
  | [] => none
  | c :: t =>
    match tryMsgAt (c :: t) with
    | some g => some g
    | none => msgTail t

/-- Regex `(chrome|edge|whatsapp|vs\s?code|notepad|spotify)` (no word
    boundaries); returns the matched text. -/
def appSearch (l : List Char) : Option (List Char) :=
  searchNoB
    [litM ("chrome".data), litM ("edge".data), litM ("whatsapp".data),
     vsCodeM, litM ("notepad".data), litM ("spotify".data)] l

/-- System-action cascade: shutdown (0.92) > restart (0.90) > sleep (0.80)
    > lock (0.80), all by substring tests. -/
def sysHit (l : List Char) : Option (String × ℚ) :=
  if containsAny l ["shutdown".data, "band kar".data, "band kr".data,
                    "pc band".data] then some ("shutdown", 92/100)
  else if containsSub ("restart".data) l || containsSub ("dobara start".data) l then
    some ("restart", 9/10)
  else if containsSub ("sleep".data) l then some ("sleep", 8/10)
  else if containsSub ("lock".data) l then some ("lock", 8/10)
  else none

def openCond (l : List Char) : Bool :=
  containsAny l ["kholo".data, "open".data, "launch".data]

def closeCond (l : List Char) : Bool :=
  containsAny l ["band karo".data, "close".data, "quit".data]

def searchCond (l : List Char) : Bool :=
  containsSub ("search".data) l || containsSub ("talash".data) l

def fileCond (l : List Char) : Bool :=
  containsAny l ["delete".data, "remove".data, "rename".data, "move".data,
    "create".data]

/-- Regex `\b(optimi[zs]e|optimize|system\s*optimize|saaf|clean)\b`
    (the character class tries `z` before `s`). -/
def optCond (l : List Char) : Bool :=
  (searchWordB
    [litM ("optimize".data), litM ("optimise".data), litM ("optimize".data),
     gapM ("system".data) ("optimize".data), litM ("saaf".data),
     litM ("clean".data)] none l).isSome

/-- Regex `\bscreenshot\b|screen\s*shot` (second alternative unbounded). -/
def ssCond (l : List Char) : Bool :=
  (searchWordB [litM ("screenshot".data)] none l).isSome ||
    (searchNoB [gapM ("screen".data) ("shot".data)] l).isSome

/-- Outcome of the priority cascade: intent tag, confidence, system-action
    sub-kind, and whether the open/close branch ran (which is the only
    branch that extracts `app`). -/
structure Classify where
  intent : String
  conf : ℚ
  action : String
  appBranch : Bool
deriving Repr, DecidableEq

/-- The ordered first-match-wins cascade of `parse_intent`, lines 54-121 of
    `intent_parser.py`.  The web-search override applies when the open
    branch ran or nothing matched; confidences are the source's constants
    (already exact to two decimals, so `round(confidence, 2)` is the
    identity on them). -/
def classify (l : List Char) : Classify :=
  if waSendCond l then ⟨"send_whatsapp", 88/100, "", false⟩
  else if schedCond l then ⟨"schedule", 85/100, "", false⟩
  else if errCond l then ⟨"error_analysis", 8/10, "", false⟩
  else
    match sysHit l with
    | some (a, c) => ⟨"system_action", c, a, false⟩
    | none =>
      if openCond l then
        if searchCond l then ⟨"search_web", 8/10, "", true⟩
        else ⟨"open_app", 8/10, "", true⟩
      else if closeCond l then ⟨"close_app", 8/10, "", true⟩
      else if searchCond l then ⟨"search_web", 8/10, "", false⟩
      else if fileCond l then ⟨"file_action", 3/4, "", false⟩
      else if optCond l then ⟨"optimize_system", 8/10, "", false⟩
      else if ssCond l then ⟨"screenshot", 85/100, "", false⟩
      else ⟨"unknown", 1/2, "", false⟩

/-- The parser's output record (field names as in the source's dict). -/
structure IntentRecord where
  intent : String
  confidence : ℚ
  channel : String
  contact : String
  message : String
  app : String
  path : String
  action : String
  raw : String
deriving Repr, DecidableEq

/-- Body of `parse_intent` once the lowered/stripped text is known. -/
def parseCore (text : String) (lower0 : List Char) : IntentRecord :=
  let lower := wakeStrip lower0
  let channel :=
    if containsSub ("whatsapp web".data) lower || webWordCond lower then "web"
    else if containsSub ("whatsapp".data) lower then "desktop"
    else "auto"
  let contact :=
    if waSendCond lower then
      match nameSearch lower with
      | some n => String.mk n
      | none =>
        match searchKo none lower with
        | some g => String.mk (pyStripKo g)
        | none => ""
    else ""
  let message :=
    if waSendCond lower then
      match searchQuoted text.data with
      | some q => String.mk q
      | none =>
        match msgTail text.data with
        | some g => String.mk (pyStrip g)
        | none => ""
    else ""
  let c := classify lower
  let app :=
    if c.appBranch then
      match appSearch lower with
      | some a => String.mk a
      | none => ""
    else ""
  ⟨c.intent, c.conf, channel, contact, message, app, "", c.action, text⟩

/-- Source `parse_intent(text)`: lowercase, strip, drop a wake word, then run
    the cascade; `raw` is the original text unmodified and `path` is never
    assigned. -/
def parse_intent (text : String) : IntentRecord :=
  parseCore text (pyStrip (pyLower text.data))

/-- The closed intent set of the specification's data model. -/
def CLAIM_INTENTS : List String :=
  ["send_whatsapp", "open_app", "close_app", "search_web", "system_action",
   "file_action", "optimize_system", "schedule", "error_analysis",
   "screenshot", "unknown"]

/-! ## Time expression parser — `don/time_parse.py`

A `datetime` is modelled by its calendar day (as an integer day number) and
the clock fields the source touches; `microsecond` is always zeroed by the
source's `replace` and reference instants are taken at second granularity.
On canonical (in-range) field values the tuple order of Python `datetime`
agrees with the order of `toSec`. -/

structure PyDateTime where
  day : Int
  hour : Nat
  minute : Nat
  second : Nat
deriving Repr, DecidableEq

def toSec (d : PyDateTime) : Int :=
  d.day * 86400 + d.hour * 3600 + d.minute * 60 + d.second

/-- Embeds `base + timedelta(days=n)`. -/
def addDays (d : PyDateTime) (n : Int) : PyDateTime := { d with day := d.day + n }

/-- Embeds `day.replace(hour=h, minute=m, second=0, microsecond=0)`. -/
def replaceT (d : PyDateTime) (h m : Nat) : PyDateTime :=
  { d with hour := h, minute := m, second := 0 }

/-- Regex `\bkal\b` ("tomorrow"). -/
def hasKal (s : List Char) : Bool := (searchWordB [litM ("kal".data)] none s).isSome

/-- Regex `\bpm\b`. -/
def pmCond (s : List Char) : Bool := (searchWordB [litM ("pm".data)] none s).isSome

/-- Regex `\bam\b`. -/
def amCond (s : List Char) : Bool := (searchWordB [litM ("am".data)] none s).isSome

def digitVal (c : Char) : Nat := c.toNat - 48

/-- Tail `\s*(?:baje|am|pm)?\b` of the numeric-time regex, `prev` being the
    character just before the current position.  Greedy `\s*` backtracks, so
    the tail succeeds if any amount of leading whitespace leads to a keyword
    or to a bare boundary. -/
def numTail (prev : Char) : List Char → Bool
  | [] =>
    (["baje".data, "am".data, "pm".data].any (fun kw => isPrefixL kw [])) ||
      isWordChar prev
  | c :: t =>
    (["baje".data, "am".data, "pm".data].any (fun kw =>
        isPrefixL kw (c :: t) && nonWordNext ((c :: t).drop kw.length))) ||
      ((isWordChar prev) != (isWordChar c)) ||
      (if isPySpace c then numTail c t else false)

/-- Optional minutes group `(?:\s*[:\.](\d{1,2}))?` followed by the tail;
    the two-digit minute is tried before the one-digit backtrack. -/
def tryMin (h : Nat) (s : List Char) : Option (Nat × Option Nat) :=
  match s.dropWhile isPySpace with
  | c :: t =>
    if c == ':' || c == '.' then
      match t with
      | d1 :: t1 =>
        if d1.isDigit then
          let two :=
            match t1 with
            | d2 :: t2 =>
              if d2.isDigit && numTail d2 t2 then
                some (h, some (digitVal d1 * 10 + digitVal d2))
              else none
            | [] => none
          match two with
          | some v => some v
          | none =>
            if numTail d1 t1 then some (h, some (digitVal d1)) else none
        else none
      | [] => none
    else none
  | [] => none

/-- After the hour digits: the minutes group is tried before being skipped. -/
def afterDigits (h : Nat) (lastDigit : Char) (s : List Char) :
    Option (Nat × Option Nat) :=
  match tryMin h s with
  | some v => some v
  | none => if numTail lastDigit s then some (h, none) else none

/-- Attempts `\b(\d{1,2})(?:\s*[:\.](\d{1,2}))?\s*(?:baje|am|pm)?\b` at one
    position; two hour digits are tried before one. -/
def tryNumAt (prev : Option Char) (s : List Char) : Option (Nat × Option Nat) :=
  if boundaryBeforeOk prev then
    match s with
    | c1 :: r1 =>
      if c1.isDigit then
        let two :=
          match r1 with
          | c2 :: r2 =>
            if c2.isDigit then afterDigits (digitVal c1 * 10 + digitVal c2) c2 r2
            else none
          | [] => none
        match two with
        | some v => some v
        | none => afterDigits (digitVal c1) c1 r1
      else none
    | [] => none
  else none

/-- Leftmost search for the numeric-time regex; returns `(hour, minutes?)`. -/
def searchNum : Option Char → List Char → Option (Nat × Option Nat)
  | prev, [] => tryNumAt prev []
  | prev, c :: t =>
    match tryNumAt prev (c :: t) with
    | some v => some v
    | none => searchNum (some c) t

/-- Source `PARTS` table, probed in insertion order by substring test. -/
def partsHour (s : List Char) : Option Nat :=
  if containsSub ("subah".data) s then some 8
  else if containsSub ("dopahar".data) s then some 13
  else if containsSub ("shaam".data) s then some 18
  else if containsSub ("raat".data) s then some 21
  else none

/-- Hour/minute resolution of `parse_natural_time`, lines 34-61 of
    `time_parse.py`: explicit numeral, then the pm/am adjustments (which
    apply only to a numeric hour, since the parts table is probed after
    them), then part-of-day defaults, then the bare-`baje` 9:00 default. -/
def resolve_hm (s : List Char) : Option (Nat × Nat) :=
  let num := searchNum none s
  let minute : Nat :=
    match num with
    | some (_, some mm) => mm
    | _ => 0
  let hour0 : Option Nat := num.map Prod.fst
  let hour1 := hour0.map (fun hh => if pmCond s && decide (hh < 12) then hh + 12 else hh)
  let hour2 := hour1.map (fun hh => if amCond s && hh == 12 then 0 else hh)
  let hour3 :=
    match hour2 with
    | some hh => some hh
    | none => partsHour s
  let hour4 :=
    match hour3 with
    | some hh => some hh
    | none => if containsSub ("baje".data) s then some 9 else none
  hour4.map (fun hh => (hh, minute))

/-- Source `parse_natural_time(text, now)`: day offset from `\bkal\b` (the
    `aaj` branch sets `day = ref`, identical to the default, so it is
    behaviourally inert), hour/minute from `resolve_hm`, then the rollover:
    a resolved time not strictly after `now` with no `kal` keyword is pushed
    one day forward.  A numeric hour above 23 makes Python's `replace` raise
    `ValueError`; that is embedded as `none` (the only in-repo caller,
    `Scheduler.schedule_from_text`, treats the exception and `None`
    identically). -/
def parse_natural_time (text : String) (ref : PyDateTime) : Option Int :=
  if text = "" then none
  else
    let s := pyLower text.data
    let day := if hasKal s then addDays ref 1 else ref
    match resolve_hm s with
    | none => none
    | some (hh, mm) =>
      if hh ≤ 23 ∧ mm ≤ 59 then
        let target := replaceT day hh mm
        let fin :=
          if toSec target ≤ toSec ref ∧ ¬hasKal s then addDays target 1
          else target
        some (toSec fin)
      else none

/-! ## Scheduler — `don/scheduler.py`

The `reminders` table of `memory/memory.db` is modelled as a list of rows
plus the next surrogate key (`AUTOINCREMENT`). -/

structure Reminder where
  id : Nat
  when_ts : Int
  title : String
  status : String
deriving Repr, DecidableEq

structure RemStore where
  rows : List Reminder
  nextId : Nat
deriving Repr, DecidableEq

/-- Source `Scheduler.schedule`: `INSERT INTO reminders (when_ts, title,
    status) VALUES (?,?,'pending')`, committed, returns `True`. -/
def schedule (st : RemStore) (when_ts : Int) (title : String) : Bool × RemStore :=
  (true, ⟨st.rows ++ [⟨st.nextId, when_ts, title, "pending"⟩], st.nextId + 1⟩)

/-- Effect of one sweep pass on one row: rows selected by
    `status='pending' AND when_ts<=now` are updated to `status='done'`. -/
def sweepRow (now : Int) (r : Reminder) : Reminder :=
  if r.status = "pending" ∧ r.when_ts ≤ now then { r with status := "done" }
  else r

/-- One iteration of `Scheduler._run`: select the due pending rows and flip
    each to done by its id in the same pass.  Ids are unique (surrogate
    `AUTOINCREMENT` key), so the per-id updates amount to mapping `sweepRow`
    over the table; no row is inserted or deleted. -/
def sweepOnce (st : RemStore) (now : Int) : RemStore :=
  ⟨st.rows.map (sweepRow now), st.nextId⟩

/-- Source `Scheduler.schedule_from_text`, with the wall clock an explicit
    parameter: resolve the timestamp first, and return `False` with no
    insertion when parsing fails. -/
def schedule_from_text (now : PyDateTime) (st : RemStore) (text title : String) :
    Bool × RemStore :=
  match parse_natural_time text now with
  | none => (false, st)
  | some w => schedule st w title

/-! ## Memory store — `core/memory.py` over `don/memory_manager.py`

The JSON document is an association list (Python dicts preserve insertion
order and `json.dump`/`json.load` round-trip it); the store state is the
document file (absent on first run) plus the created-or-not sqlite schema.
The process-wide lock serialises the operations, so each is modelled as an
atomic state transformer.  I/O errors (caught and surfaced as `False` /
defaults in the source) do not arise in the pure model. -/

inductive MVal where
  | str : String → MVal
  | mdict : List (String × MVal) → MVal

abbrev MDoc := List (String × MVal)

/-- Default document returned by `load_m1` when `memory.json` is missing. -/
def M1_DEFAULTS : MDoc :=
  [("nicknames", .mdict []),
   ("preferred_whatsapp_channel", .str "desktop"),
   ("last_tone", .str "friendly")]

structure MemFS where
  file : Option MDoc
  dbInit : Bool

/-- Source `load_m1`: the parsed `memory.json`, or the defaults if absent. -/
def load_m1 (fs : MemFS) : MDoc :=
  match fs.file with
  | none => M1_DEFAULTS
  | some d => d

/-- Source `save_m1`: `json.dump(data, f)` — overwrite, not merge. -/
def save_m1 (fs : MemFS) (d : MDoc) : Bool × MemFS :=
  (true, { fs with file := some d })

/-- Source `init_m2`: idempotent `CREATE TABLE IF NOT EXISTS ...`. -/
def init_m2 (fs : MemFS) : Bool × MemFS := (true, { fs with dbInit := true })

/-- Source `MemoryManager.read_memory` (delegates to `load_m1`). -/
def read_memory (fs : MemFS) : MDoc := load_m1 fs

/-- Source `MemoryManager.write_memory`: `save_m1`, bail out on failure,
    then `init_m2`, then `True`. -/
def write_memory (fs : MemFS) (d : MDoc) : Bool × MemFS :=
  let r := save_m1 fs d
  if r.1 then
    let r2 := init_m2 r.2
    (true, r2.2)
  else (false, r.2)

/-- Python `memory[key] = value` on the ordered dict: replace in place if the
    key exists, else append. -/
def dictAssign : MDoc → String → MVal → MDoc
  | [], k, v => [(k, v)]
  | (k', v') :: rest, k, v =>
    if k' = k then (k, v) :: rest else (k', v') :: dictAssign rest k v

/-- Source `MemoryManager.update_memory`: read, assign one key, write back. -/
def update_memory (fs : MemFS) (k : String) (v : MVal) : Bool × MemFS :=
  write_memory fs (dictAssign (read_memory fs) k v)

/-- First-match association lookup (Python `dict` access). -/
def mLookup : MDoc → String → Option MVal
  | [], _ => none
  | (k', v') :: rest, k => if k' = k then some v' else mLookup rest k

/-! ## Command executor — `don/executor.py`

The executor's result dicts are heterogeneous, so they are modelled as
association lists of `PyVal`.  The collaborators it calls out to (WhatsApp
automation, app/browser/system control, screenshot, scheduler) are external
side-effecting subsystems; each is given as an environment field of type
`Except`, whose `error` case is a raised exception.  `load_settings()` and
the `WhatsAppAutomation` constructor are modelled as pre-resolved
environment values: their internal I/O is wrapped in `try/except` blocks of
their own and the settings value itself is only passed through to the
collaborators.  `dev_api.optimize_system` is in-repo and embedded directly
(it only consults the safety gate). -/

inductive PyVal where
  | b : Bool → PyVal
  | s : String → PyVal
  | i : Int → PyVal
  | irec : IntentRecord → PyVal
  | pdict : List (String × PyVal) → PyVal

abbrev PyDict := List (String × PyVal)

/-- First-match association lookup on a result dict. -/
def pdLookup : PyDict → String → Option PyVal
  | [], _ => none
  | (k', v') :: rest, k => if k' = k then some v' else pdLookup rest k

/-- Collaborator environment of one `execute_command` call. -/
structure ExecEnv where
  /-- `SIMULATION_MODE` / `CONFIRM`, read by the safety gate inside
      `dev_api.optimize_system`. -/
  safety : SafetyEnv
  /-- `WhatsAppAutomation.send_text(contact, message, prefer_web)`. -/
  send_text : String → String → Bool → Except String Bool
  /-- `app_control.open_app(name)`. -/
  open_app : String → Except String Bool
  /-- `app_control.close_app_by_name(process)`, returns a count. -/
  close_app_by_name : String → Except String Int
  /-- `browser_control.google_search(settings, query)`. -/
  google_search : String → Except String Bool
  /-- `system_control.shutdown/restart/sleep/lock`. -/
  shutdown : Except String Bool
  restart : Except String Bool
  sleep : Except String Bool
  lock : Except String Bool
  /-- `system_control.take_screenshot(path)`. -/
  take_screenshot : String → Except String Bool
  /-- `Scheduler().schedule_from_text(text, title)` (sqlite-backed). -/
  sched_from_text : String → String → Except String Bool

/-- Source `dev_api._result`: the `{ok, method, detail, meta}` envelope. -/
def devResult (ok : Bool) (method detail : String) (meta : PyDict) : PyDict :=
  [("ok", .b ok), ("method", .s method), ("detail", .s detail),
   ("meta", .pdict meta)]

/-- Source `dev_api.optimize_system`: gate on `require_confirmation`. -/
def optimize_api (e : SafetyEnv) : PyDict :=
  if require_confirmation e "optimize system cleanup" then
    devResult true "system" "Optimization completed" []
  else
    devResult false "system" "Optimization blocked or simulated" []

/-- Embeds `(res.get("intent") or "").lower().strip()`. -/
def normIntent (s : String) : String := String.mk (pyStrip (pyLower s.data))

/-- Embeds `(res.get("app") or res.get("target") or "").strip().lower()`
    (the record never carries a `target` key). -/
def normApp (s : String) : String := String.mk (pyLower (pyStrip s.data))

/-- Sequences a collaborator call inside the `try` block: a raised exception
    propagates to the top-level handler. -/
def bindB : Except String Bool → (Bool → PyDict) → Except String PyDict
  | .ok v, f => .ok (f v)
  | .error e, _ => .error e

/-- As `bindB`, for the collaborator returning a count. -/
def bindI : Except String Int → (Int → PyDict) → Except String PyDict
  | .ok v, f => .ok (f v)
  | .error e, _ => .error e

/-- Branches after the system-action block of `execute_command` (the block
    falls through when its `action` is not one of the four verbs). -/
def dispatchRest (env : ExecEnv) (res : IntentRecord) (intent : String) :
    Except String PyDict :=
  if intent ∈ ["optimize_system", "cleanup", "boost"] then
    .ok (optimize_api env.safety)
  else if intent ∈ ["screenshot", "take_screenshot", "capture"] then
    bindB (env.take_screenshot "screenshot.png") (fun ok =>
      [("ok", .b ok), ("handler", .s "screenshot"), ("path", .s "screenshot.png")])
  else if intent ∈ ["schedule", "reminder", "set_alarm"] then
    bindB (env.sched_from_text res.raw "Reminder") (fun ok =>
      [("ok", .b ok), ("handler", .s "schedule")])
  else if intent = "error_analysis" then
    .ok [("ok", .b true), ("handler", .s "error_analysis")]
  else
    .ok [("ok", .b false), ("handler", .s "unknown"), ("raw_intent", .s intent),
         ("parsed", .irec res)]

/-- Body of the `try` block of `execute_command`: the dispatch cascade. -/
def dispatch (env : ExecEnv) (res : IntentRecord) : Except String PyDict :=
  let intent := normIntent res.intent
  if intent ∈ ["send_whatsapp", "whatsapp_message", "send_message"] then
    bindB (env.send_text res.contact res.message (res.channel = "web")) (fun ok =>
      [("ok", .b ok), ("handler", .s "whatsapp")])
  else if intent ∈ ["open", "open_app", "launch", "run", "start"] then
    let app_name := normApp res.app
    if app_name = "" then
      .ok [("ok", .b false), ("handler", .s "open_app"), ("reason", .s "no_app")]
    else
      bindB (env.open_app app_name) (fun ok =>
        [("ok", .b ok), ("handler", .s "open_app"), ("app", .s app_name)])
  else if intent ∈ ["close", "close_app", "exit", "terminate", "shutdown_app"] then
    let app_name := normApp res.app
    if app_name = "" then
      .ok [("ok", .b false), ("handler", .s "close_app"), ("reason", .s "no_app")]
    else
      bindI (env.close_app_by_name (app_name ++ ".exe")) (fun cnt =>
        [("ok", .b (decide (0 < cnt))), ("handler", .s "close_app"),
         ("app", .s app_name)])
  else if intent ∈ ["search_web", "google", "search"] then
    let query := res.raw
    bindB (env.google_search query) (fun ok =>
      [("ok", .b ok), ("handler", .s "search_web"), ("query", .s query)])
  else if intent ∈ ["system_action", "shutdown", "restart", "sleep", "lock"] then
    let action := if res.action = "" then intent else res.action
    if action = "shutdown" then
      bindB env.shutdown (fun ok => [("ok", .b ok), ("handler", .s "shutdown")])
    else if action = "restart" then
      bindB env.restart (fun ok => [("ok", .b ok), ("handler", .s "restart")])
    else if action = "sleep" then
      bindB env.sleep (fun ok => [("ok", .b ok), ("handler", .s "sleep")])
    else if action = "lock" then
      bindB env.lock (fun ok => [("ok", .b ok), ("handler", .s "lock")])
    else dispatchRest env res intent
  else dispatchRest env res intent

/-- Source `execute_command(raw_text)`: parse the intent, run the dispatch
    cascade, and convert any exception raised inside the `try` block into
    the `{ok: false, handler: "error", error: <message>}` record. -/
def execute_command (env : ExecEnv) (raw_text : String) : PyDict :=
  let res := parse_intent raw_text
  match dispatch env res with
  | .ok d => d
  | .error e => [("ok", .b false), ("handler", .s "error"), ("error", .s e)]

/-- A concrete all-simulated environment (every collaborator succeeds with
    `False`, nothing raises), used for concrete evaluations. -/
def simEnv : ExecEnv where
  safety := ⟨some "true", none⟩
  send_text := fun _ _ _ => .ok false
  open_app := fun _ => .ok false
  close_app_by_name := fun _ => .ok 0
  google_search := fun _ => .ok false
  shutdown := .ok false
  restart := .ok false
  sleep := .ok false
  lock := .ok false
  take_screenshot := fun _ => .ok false
  sched_from_text := fun _ _ => .ok false

/-- A concrete environment whose WhatsApp collaborator raises. -/
def raisingEnv : ExecEnv :=
  { simEnv with send_text := fun _ _ _ => .error "boom" }

end Don

open Don

/-! ## Helper lemmas -/

lemma classify_intent_mem (l : List Char) : (classify l).intent ∈ CLAIM_INTENTS := by
  unfold classify
  repeat' split
  all_goals simp only [Classify.intent]
  all_goals decide

lemma lowerChar_of_space {c : Char} (h : isPySpace c = true) : lowerChar c = c := by
  unfold isPySpace at h
  simp only [Bool.or_eq_true, beq_iff_eq] at h
  rcases h with ((((h | h) | h) | h) | h) | h <;> subst h <;> decide

lemma pyStrip_pyLower_of_space {l : List Char} (h : l.all isPySpace) :
    pyStrip (pyLower l) = [] := by
  have h2 : ∀ c ∈ pyLower l, isPySpace c = true := by
    intro c hc
    simp only [pyLower, List.mem_map] at hc
    obtain ⟨a, ha, rfl⟩ := hc
    have hsp := List.all_eq_true.mp h a ha
    rw [lowerChar_of_space hsp]
    exact hsp
  have h3 : (pyLower l).dropWhile isPySpace = [] :=
    List.dropWhile_eq_nil_iff.mpr (fun x hx => h2 x hx)
  simp [pyStrip, h3]

lemma parse_intent_intent_mem (text : String) :
    (parse_intent text).intent ∈ CLAIM_INTENTS :=
  classify_intent_mem _

lemma normIntent_of_mem {s : String} (hs : s ∈ CLAIM_INTENTS) :
    normIntent s = s := by
  simp only [CLAIM_INTENTS, List.mem_cons, List.not_mem_nil, or_false] at hs
  rcases hs with rfl | rfl | rfl | rfl | rfl | rfl | rfl | rfl | rfl | rfl | rfl <;> rfl

lemma mLookup_dictAssign_self (m : MDoc) (k : String) (v : MVal) :
    mLookup (dictAssign m k v) k = some v := by
  induction m with
  | nil => simp [dictAssign, mLookup]
  | cons hd tl ih =>
    obtain ⟨k0, v0⟩ := hd
    by_cases h : k0 = k
    · simp [dictAssign, h, mLookup]
    · simp [dictAssign, h, mLookup, ih]

lemma mLookup_dictAssign_frame (m : MDoc) (k k' : String) (v : MVal)
    (hne : k' ≠ k) : mLookup (dictAssign m k v) k' = mLookup m k' := by
  induction m with
  | nil => simp [dictAssign, mLookup, Ne.symm hne]
  | cons hd tl ih =>
    obtain ⟨k0, v0⟩ := hd
    by_cases h : k0 = k
    · subst h
      simp [dictAssign, mLookup, Ne.symm hne]
    · simp [dictAssign, h, mLookup, ih]

lemma dispatch_ok_fields (env : ExecEnv) (res : IntentRecord)
    (hmem : res.intent ∈ CLAIM_INTENTS) (d : PyDict)
    (hd : dispatch env res = .ok d) :
    (∃ b, pdLookup d "ok" = some (.b b)) ∧
      (res.intent ≠ "optimize_system" →
        ∃ hs, pdLookup d "handler" = some (.s hs)) := by
  obtain ⟨i, cf, ch, co, me, ap, pa, ac, ra⟩ := res
  simp only [CLAIM_INTENTS, List.mem_cons, List.not_mem_nil, or_false] at hmem
  rcases hmem with rfl | rfl | rfl | rfl | rfl | rfl | rfl | rfl | rfl | rfl | rfl
  -- send_whatsapp
  · have he : dispatch env ⟨"send_whatsapp", cf, ch, co, me, ap, pa, ac, ra⟩ =
        bindB (env.send_text co me (decide (ch = "web"))) (fun ok =>
          [("ok", .b ok), ("handler", .s "whatsapp")]) := rfl
    rw [he] at hd
    cases hcall : env.send_text co me (decide (ch = "web")) with
    | error e => rw [hcall] at hd; exact Except.noConfusion hd
    | ok b =>
      rw [hcall] at hd; simp only [bindB, Except.ok.injEq] at hd
      subst hd
      exact ⟨⟨b, rfl⟩, fun _ => ⟨"whatsapp", rfl⟩⟩
  -- open_app
  · have he : dispatch env ⟨"open_app", cf, ch, co, me, ap, pa, ac, ra⟩ =
        (if normApp ap = "" then
          .ok [("ok", .b false), ("handler", .s "open_app"), ("reason", .s "no_app")]
        else
          bindB (env.open_app (normApp ap)) (fun ok =>
            [("ok", .b ok), ("handler", .s "open_app"), ("app", .s (normApp ap))])) := rfl
    rw [he] at hd
    by_cases happ : normApp ap = ""
    · rw [if_pos happ] at hd
      simp only [Except.ok.injEq] at hd
      subst hd
      exact ⟨⟨false, rfl⟩, fun _ => ⟨"open_app", rfl⟩⟩
    · rw [if_neg happ] at hd
      cases hcall : env.open_app (normApp ap) with
      | error e => rw [hcall] at hd; exact Except.noConfusion hd
      | ok b =>
        rw [hcall] at hd; simp only [bindB, Except.ok.injEq] at hd
        subst hd
        exact ⟨⟨b, rfl⟩, fun _ => ⟨"open_app", rfl⟩⟩
  -- close_app
  · have he : dispatch env ⟨"close_app", cf, ch, co, me, ap, pa, ac, ra⟩ =
        (if normApp ap = "" then
          .ok [("ok", .b false), ("handler", .s "close_app"), ("reason", .s "no_app")]
        else
          bindI (env.close_app_by_name (normApp ap ++ ".exe")) (fun cnt =>
            [("ok", .b (decide (0 < cnt))), ("handler", .s "close_app"),
             ("app", .s (normApp ap))])) := rfl
    rw [he] at hd
    by_cases happ : normApp ap = ""
    · rw [if_pos happ] at hd
      simp only [Except.ok.injEq] at hd
      subst hd
      exact ⟨⟨false, rfl⟩, fun _ => ⟨"close_app", rfl⟩⟩
    · rw [if_neg happ] at hd
      cases hcall : env.close_app_by_name (normApp ap ++ ".exe") with
      | error e => rw [hcall] at hd; exact Except.noConfusion hd
      | ok cnt =>
        rw [hcall] at hd; simp only [bindI, Except.ok.injEq] at hd
        subst hd
        exact ⟨⟨decide (0 < cnt), rfl⟩, fun _ => ⟨"close_app", rfl⟩⟩
  -- search_web
  · have he : dispatch env ⟨"search_web", cf, ch, co, me, ap, pa, ac, ra⟩ =
        bindB (env.google_search ra) (fun ok =>
          [("ok", .b ok), ("handler", .s "search_web"), ("query", .s ra)]) := rfl
    rw [he] at hd
    cases hcall : env.google_search ra with
    | error e => rw [hcall] at hd; exact Except.noConfusion hd
    | ok b =>
      rw [hcall] at hd; simp only [bindB, Except.ok.injEq] at hd
      subst hd
      exact ⟨⟨b, rfl⟩, fun _ => ⟨"search_web", rfl⟩⟩
  -- system_action
  · have he : dispatch env ⟨"system_action", cf, ch, co, me, ap, pa, ac, ra⟩ =
        (if (if ac = "" then "system_action" else ac) = "shutdown" then
          bindB env.shutdown (fun ok => [("ok", .b ok), ("handler", .s "shutdown")])
        else if (if ac = "" then "system_action" else ac) = "restart" then
          bindB env.restart (fun ok => [("ok", .b ok), ("handler", .s "restart")])
        else if (if ac = "" then "system_action" else ac) = "sleep" then
          bindB env.sleep (fun ok => [("ok", .b ok), ("handler", .s "sleep")])
        else if (if ac = "" then "system_action" else ac) = "lock" then
          bindB env.lock (fun ok => [("ok", .b ok), ("handler", .s "lock")])
        else
          .ok [("ok", .b false), ("handler", .s "unknown"),
               ("raw_intent", .s "system_action"),
               ("parsed", .irec ⟨"system_action", cf, ch, co, me, ap, pa, ac, ra⟩)]) := rfl
    rw [he] at hd
    by_cases hc1 : (if ac = "" then "system_action" else ac) = "shutdown"
    · rw [if_pos hc1] at hd
      cases hcall : env.shutdown with
      | error e => rw [hcall] at hd; exact Except.noConfusion hd
      | ok b =>
        rw [hcall] at hd; simp only [bindB, Except.ok.injEq] at hd
        subst hd
        exact ⟨⟨b, rfl⟩, fun _ => ⟨"shutdown", rfl⟩⟩
    · rw [if_neg hc1] at hd
      by_cases hc2 : (if ac = "" then "system_action" else ac) = "restart"
      · rw [if_pos hc2] at hd
        cases hcall : env.restart with
        | error e => rw [hcall] at hd; exact Except.noConfusion hd
        | ok b =>
          rw [hcall] at hd; simp only [bindB, Except.ok.injEq] at hd
          subst hd
          exact ⟨⟨b, rfl⟩, fun _ => ⟨"restart", rfl⟩⟩
      · rw [if_neg hc2] at hd
        by_cases hc3 : (if ac = "" then "system_action" else ac) = "sleep"
        · rw [if_pos hc3] at hd
          cases hcall : env.sleep with
          | error e => rw [hcall] at hd; exact Except.noConfusion hd
          | ok b =>
            rw [hcall] at hd; simp only [bindB, Except.ok.injEq] at hd
            subst hd
            exact ⟨⟨b, rfl⟩, fun _ => ⟨"sleep", rfl⟩⟩
        · rw [if_neg hc3] at hd
          by_cases hc4 : (if ac = "" then "system_action" else ac) = "lock"
          · rw [if_pos hc4] at hd
            cases hcall : env.lock with
            | error e => rw [hcall] at hd; exact Except.noConfusion hd
            | ok b =>
              rw [hcall] at hd; simp only [bindB, Except.ok.injEq] at hd
              subst hd
              exact ⟨⟨b, rfl⟩, fun _ => ⟨"lock", rfl⟩⟩
          · rw [if_neg hc4] at hd
            simp only [Except.ok.injEq] at hd
            subst hd
            exact ⟨⟨false, rfl⟩, fun _ => ⟨"unknown", rfl⟩⟩
  -- file_action (no dispatch branch: falls through to the unknown record)
  · have he : dispatch env ⟨"file_action", cf, ch, co, me, ap, pa, ac, ra⟩ =
        .ok [("ok", .b false), ("handler", .s "unknown"),
             ("raw_intent", .s "file_action"),
             ("parsed", .irec ⟨"file_action", cf, ch, co, me, ap, pa, ac, ra⟩)] := rfl
    rw [he] at hd
    simp only [Except.ok.injEq] at hd
    subst hd
    exact ⟨⟨false, rfl⟩, fun _ => ⟨"unknown", rfl⟩⟩
  -- optimize_system
  · have he : dispatch env ⟨"optimize_system", cf, ch, co, me, ap, pa, ac, ra⟩ =
        .ok (optimize_api env.safety) := rfl
    rw [he] at hd
    simp only [Except.ok.injEq] at hd
    subst hd
    refine ⟨?_, fun hne => absurd rfl hne⟩
    unfold optimize_api
    split
    · exact ⟨true, rfl⟩
    · exact ⟨false, rfl⟩
  -- schedule
  · have he : dispatch env ⟨"schedule", cf, ch, co, me, ap, pa, ac, ra⟩ =
        bindB (env.sched_from_text ra "Reminder") (fun ok =>
          [("ok", .b ok), ("handler", .s "schedule")]) := rfl
    rw [he] at hd
    cases hcall : env.sched_from_text ra "Reminder" with
    | error e => rw [hcall] at hd; exact Except.noConfusion hd
    | ok b =>
      rw [hcall] at hd; simp only [bindB, Except.ok.injEq] at hd
      subst hd
      exact ⟨⟨b, rfl⟩, fun _ => ⟨"schedule", rfl⟩⟩
  -- error_analysis
  · have he : dispatch env ⟨"error_analysis", cf, ch, co, me, ap, pa, ac, ra⟩ =
        .ok [("ok", .b true), ("handler", .s "error_analysis")] := rfl
    rw [he] at hd
    simp only [Except.ok.injEq] at hd
    subst hd
    exact ⟨⟨true, rfl⟩, fun _ => ⟨"error_analysis", rfl⟩⟩
  -- screenshot
  · have he : dispatch env ⟨"screenshot", cf, ch, co, me, ap, pa, ac, ra⟩ =
        bindB (env.take_screenshot "screenshot.png") (fun ok =>
          [("ok", .b ok), ("handler", .s "screenshot"),
           ("path", .s "screenshot.png")]) := rfl
    rw [he] at hd
    cases hcall : env.take_screenshot "screenshot.png" with
    | error e => rw [hcall] at hd; exact Except.noConfusion hd
    | ok b =>
      rw [hcall] at hd; simp only [bindB, Except.ok.injEq] at hd
      subst hd
      exact ⟨⟨b, rfl⟩, fun _ => ⟨"screenshot", rfl⟩⟩
  -- unknown
  · have he : dispatch env ⟨"unknown", cf, ch, co, me, ap, pa, ac, ra⟩ =
        .ok [("ok", .b false), ("handler", .s "unknown"),
             ("raw_intent", .s "unknown"),
             ("parsed", .irec ⟨"unknown", cf, ch, co, me, ap, pa, ac, ra⟩)] := rfl
    rw [he] at hd
    simp only [Except.ok.injEq] at hd
    subst hd
    exact ⟨⟨false, rfl⟩, fun _ => ⟨"unknown", rfl⟩⟩

/-! ## Claim theorems -/

/-- C1: `require_confirmation` returns true iff simulation mode is off and the
confirmation flag is set, for every action description; in particular it is
false whenever `SIMULATION_MODE` is truthy, and false whenever `CONFIRM` is
unset or non-truthy. -/
theorem safety_require_confirmation_iff (e : SafetyEnv) (d : String) :
    require_confirmation e d = (!is_simulation_mode e && is_confirmed e) := by
  unfold require_confirmation
  cases h1 : is_simulation_mode e <;> cases h2 : is_confirmed e <;> simp

/-- C3: for every input string `parse_intent` terminates (it is a total
function) and returns a record whose `intent` is in the closed set
`{send_whatsapp, open_app, close_app, search_web, system_action, file_action,
optimize_system, schedule, error_analysis, screenshot, unknown}`, with `raw`
equal to the original input text unmodified. -/
theorem parse_intent_closed_set (text : String) :
    (parse_intent text).intent ∈ CLAIM_INTENTS ∧ (parse_intent text).raw = text :=
  ⟨classify_intent_mem _, rfl⟩

/-- C8: `parse_intent` is a deterministic pure function of its text argument —
the embedding takes no state beyond the text (the source reads no mutable
state), so two calls on the same input yield identical output records. -/
theorem parse_intent_deterministic (t1 t2 : String) (h : t1 = t2) :
    parse_intent t1 = parse_intent t2 := by rw [h]

theorem parse_intent_deterministic_witness :
    parse_intent "chrome kholo" = parse_intent "chrome kholo" :=
  parse_intent_deterministic "chrome kholo" "chrome kholo" rfl

/-- C9: on the empty string and on every whitespace-only input,
`parse_intent` returns intent `"unknown"`, confidence `0.5`, and empty
`contact`, `message`, `app`, `path` and `action` fields (channel stays
`"auto"`, `raw` is the original text). -/
theorem parse_intent_whitespace (text : String)
    (h : text.data.all isPySpace = true) :
    parse_intent text = ⟨"unknown", 1/2, "auto", "", "", "", "", "", text⟩ := by
  unfold parse_intent
  rw [pyStrip_pyLower_of_space h]
  rfl

theorem parse_intent_whitespace_witness :
    ("  ".data.all isPySpace = true) ∧
      parse_intent "  " = ⟨"unknown", 1/2, "auto", "", "", "", "", "", "  "⟩ :=
  ⟨by decide, parse_intent_whitespace "  " (by decide)⟩

/-- C4: for a fixed reference instant, whenever the resolved absolute time is
not strictly after `now` and the text contains no explicit `kal` ("tomorrow")
keyword, the result is rolled forward by exactly one day; concretely,
`parse_natural_time "8 baje" ref` with `ref` before 08:00 resolves to 08:00
of `ref`'s day, with `ref` after 08:00 to 08:00 of the next day, and
`parse_natural_time "kal subah 8 baje" ref` resolves to 08:00 of the day
after `ref`'s date. -/
theorem parse_natural_time_rollover (text : String) (ref : PyDateTime)
    (hh mm : Nat) :
    (text ≠ "" → resolve_hm (pyLower text.data) = some (hh, mm) →
      hh ≤ 23 → mm ≤ 59 → hasKal (pyLower text.data) = false →
      toSec (replaceT ref hh mm) ≤ toSec ref →
      parse_natural_time text ref =
        some (toSec (addDays (replaceT ref hh mm) 1))) ∧
    (toSec ref < toSec (replaceT ref 8 0) →
      parse_natural_time "8 baje" ref = some (toSec (replaceT ref 8 0))) ∧
    (toSec (replaceT ref 8 0) < toSec ref →
      parse_natural_time "8 baje" ref =
        some (toSec (addDays (replaceT ref 8 0) 1))) ∧
    (parse_natural_time "kal subah 8 baje" ref =
      some (toSec (replaceT (addDays ref 1) 8 0))) := by
  refine ⟨?_, ?_, ?_, ?_⟩
  · intro ht hres h23 h59 hkal hle
    unfold parse_natural_time
    rw [if_neg ht]
    simp only [hkal, hres, Bool.false_eq_true, if_false]
    rw [if_pos ⟨h23, h59⟩, if_pos ⟨hle, by simp [hkal]⟩]
  · intro hlt
    have hres : resolve_hm (pyLower ("8 baje").data) = some (8, 0) := rfl
    have hkal : hasKal (pyLower ("8 baje").data) = false := rfl
    unfold parse_natural_time
    rw [if_neg (by decide : ¬("8 baje" : String) = "")]
    simp only [hkal, hres, Bool.false_eq_true, if_false]
    rw [if_pos (by constructor <;> norm_num),
        if_neg (fun hc => absurd hc.1 (not_le.mpr hlt))]
  · intro hlt
    have hres : resolve_hm (pyLower ("8 baje").data) = some (8, 0) := rfl
    have hkal : hasKal (pyLower ("8 baje").data) = false := rfl
    unfold parse_natural_time
    rw [if_neg (by decide : ¬("8 baje" : String) = "")]
    simp only [hkal, hres, Bool.false_eq_true, if_false]
    rw [if_pos (by constructor <;> norm_num),
        if_pos ⟨le_of_lt hlt, by simp [hkal]⟩]
  · have hres : resolve_hm (pyLower ("kal subah 8 baje").data) = some (8, 0) := rfl
    have hkal : hasKal (pyLower ("kal subah 8 baje").data) = true := rfl
    unfold parse_natural_time
    rw [if_neg (by decide : ¬("kal subah 8 baje" : String) = "")]
    simp only [hkal, hres, if_true]
    rw [if_pos (by constructor <;> norm_num),
        if_neg (fun hc => by simp [hkal] at hc)]

theorem parse_natural_time_rollover_witness :
    parse_natural_time "8 baje" ⟨0, 6, 30, 0⟩ =
      some (toSec (replaceT ⟨0, 6, 30, 0⟩ 8 0)) ∧
    parse_natural_time "8 baje" ⟨0, 12, 0, 0⟩ =
      some (toSec (addDays (replaceT ⟨0, 12, 0, 0⟩ 8 0) 1)) ∧
    parse_natural_time "kal subah 8 baje" ⟨0, 6, 30, 0⟩ =
      some (toSec (replaceT (addDays ⟨0, 6, 30, 0⟩ 1) 8 0)) ∧
    parse_natural_time "9 baje" ⟨0, 23, 0, 0⟩ =
      some (toSec (addDays (replaceT ⟨0, 23, 0, 0⟩ 9 0) 1)) :=
  ⟨(parse_natural_time_rollover "8 baje" ⟨0, 6, 30, 0⟩ 8 0).2.1 (by decide),
   (parse_natural_time_rollover "8 baje" ⟨0, 12, 0, 0⟩ 8 0).2.2.1 (by decide),
   (parse_natural_time_rollover "kal subah 8 baje" ⟨0, 6, 30, 0⟩ 8 0).2.2.2,
   (parse_natural_time_rollover "9 baje" ⟨0, 23, 0, 0⟩ 9 0).1 (by decide) rfl
     (by norm_num) (by norm_num) rfl (by decide)⟩

/-- C5: a reminder inserted by `Scheduler.schedule` starts pending and rows
are only ever appended; a sweep maps the rows in place (deleting nothing and
touching no field but `status`), flips a pending reminder that is due
(`when_ts ≤ now`) to done, leaves done reminders unchanged, and once a
reminder is done any further sweep leaves it done — so each reminder moves
pending → done at most once and is never deleted. -/
theorem scheduler_pending_done_oneway (st : RemStore) (now now2 ts : Int)
    (title : String) (r : Reminder) :
    ((schedule st ts title).2.rows =
      st.rows ++ [⟨st.nextId, ts, title, "pending"⟩]) ∧
    ((sweepOnce st now).rows = st.rows.map (sweepRow now)) ∧
    ((sweepRow now r).id = r.id ∧ (sweepRow now r).when_ts = r.when_ts ∧
      (sweepRow now r).title = r.title) ∧
    (r.status = "done" → sweepRow now r = r) ∧
    (r.status = "pending" → r.when_ts ≤ now → (sweepRow now r).status = "done") ∧
    ((sweepRow now r).status = "done" →
      sweepRow now2 (sweepRow now r) = sweepRow now r) := by
  have key : ∀ (m : Int) (x : Reminder), x.status = "done" → sweepRow m x = x := by
    intro m x hx
    unfold sweepRow
    rw [if_neg (fun hc => by rw [hx] at hc; exact absurd hc.1 (by decide))]
  refine ⟨rfl, rfl, ?_, key now r, ?_, fun hdone => key now2 _ hdone⟩
  · unfold sweepRow
    split <;> simp
  · intro hp hd
    unfold sweepRow
    rw [if_pos ⟨hp, hd⟩]

theorem scheduler_pending_done_oneway_witness :
    (schedule ⟨[], 1⟩ 5 "X").2.rows = [] ++ [⟨1, 5, "X", "pending"⟩] ∧
    (sweepRow 10 ⟨1, 5, "X", "pending"⟩).status = "done" ∧
    sweepRow 20 (sweepRow 10 ⟨1, 5, "X", "pending"⟩) =
      sweepRow 10 ⟨1, 5, "X", "pending"⟩ :=
  ⟨(scheduler_pending_done_oneway ⟨[], 1⟩ 10 20 5 "X" ⟨1, 5, "X", "pending"⟩).1,
   (scheduler_pending_done_oneway ⟨[], 1⟩ 10 20 5 "X"
      ⟨1, 5, "X", "pending"⟩).2.2.2.2.1 rfl (by norm_num),
   (scheduler_pending_done_oneway ⟨[], 1⟩ 10 20 5 "X"
      ⟨1, 5, "X", "pending"⟩).2.2.2.2.2 (by decide)⟩

/-- C6: when the time parser fails (`parse_natural_time` returns `none`),
`Scheduler.schedule_from_text` returns `false` and inserts nothing, leaving
the reminder store unchanged. -/
theorem schedule_from_text_parse_failure (now : PyDateTime) (st : RemStore)
    (text title : String) (h : parse_natural_time text now = none) :
    schedule_from_text now st text title = (false, st) := by
  unfold schedule_from_text
  rw [h]

theorem schedule_from_text_parse_failure_witness :
    parse_natural_time "hello" ⟨0, 0, 0, 0⟩ = none ∧
      schedule_from_text ⟨0, 0, 0, 0⟩ ⟨[], 1⟩ "hello" "X" = (false, ⟨[], 1⟩) :=
  ⟨rfl, schedule_from_text_parse_failure ⟨0, 0, 0, 0⟩ ⟨[], 1⟩ "hello" "X" rfl⟩

/-- C7: writing a document and reading it back returns exactly that document
(overwrite semantics, no injected keys); in particular, starting from a
store with no persisted memory file, `write {"k":"v"}` then `read` returns
exactly `{"k":"v"}`. -/
theorem memory_write_read_roundtrip (fs : MemFS) (d : MDoc) :
    (write_memory fs d).1 = true ∧
    read_memory (write_memory fs d).2 = d ∧
    read_memory (write_memory ⟨none, false⟩ [("k", .str "v")]).2 =
      [("k", .str "v")] :=
  ⟨rfl, rfl, rfl⟩

/-- C10: after `update_memory k v` returns `true`, the document maps `k` to
`v` and every other key to exactly the value it had before the call (no
other key added, removed, or changed). -/
theorem update_memory_frame (fs : MemFS) (k k' : String) (v : MVal) :
    (update_memory fs k v).1 = true ∧
    mLookup (read_memory (update_memory fs k v).2) k = some v ∧
    (k' ≠ k → mLookup (read_memory (update_memory fs k v).2) k' =
      mLookup (read_memory fs) k') :=
  ⟨rfl, mLookup_dictAssign_self _ _ _,
   fun hne => mLookup_dictAssign_frame _ _ _ _ hne⟩

theorem update_memory_frame_witness :
    (update_memory ⟨none, false⟩ "tone" (.str "calm")).1 = true ∧
    mLookup (read_memory (update_memory ⟨none, false⟩ "tone" (.str "calm")).2)
      "tone" = some (.str "calm") ∧
    mLookup (read_memory (update_memory ⟨none, false⟩ "tone" (.str "calm")).2)
      "last_tone" = mLookup (read_memory ⟨none, false⟩) "last_tone" :=
  ⟨(update_memory_frame ⟨none, false⟩ "tone" "last_tone" (.str "calm")).1,
   (update_memory_frame ⟨none, false⟩ "tone" "last_tone" (.str "calm")).2.1,
   (update_memory_frame ⟨none, false⟩ "tone" "last_tone" (.str "calm")).2.2
     (by decide)⟩

/-- C2 (amended): for every input string `execute_command` terminates and
returns a record containing a boolean `ok`; in every branch except the
optimize branch the record also contains a string `handler` (the optimize
branch returns the dev-api `{ok, method, detail, meta}` envelope, which has
no `handler` key); any exception raised inside the dispatch block is
converted into `{ok: false, handler: "error", error: <message>}`. -/
theorem execute_command_result_shape (env : ExecEnv) (raw : String) :
    (∃ b, pdLookup (execute_command env raw) "ok" = some (.b b)) ∧
    ((parse_intent raw).intent ≠ "optimize_system" →
      ∃ hs, pdLookup (execute_command env raw) "handler" = some (.s hs)) ∧
    (∀ e, dispatch env (parse_intent raw) = .error e →
      execute_command env raw =
        [("ok", .b false), ("handler", .s "error"), ("error", .s e)]) := by
  have hx : ∀ dres, dispatch env (parse_intent raw) = dres →
      execute_command env raw =
        (match dres with
         | .ok d => d
         | .error e =>
           [("ok", .b false), ("handler", .s "error"), ("error", .s e)]) := by
    intro dres hdres
    simp only [execute_command]
    rw [hdres]
  generalize hd : dispatch env (parse_intent raw) = dres
  have hex := hx dres hd
  cases dres with
  | error e =>
    refine ⟨⟨false, ?_⟩, fun _ => ⟨"error", ?_⟩, fun e2 he2 => ?_⟩
    · rw [hex]
      rfl
    · rw [hex]
      rfl
    · simp only [Except.error.injEq] at he2
      subst he2
      rw [hex]
  | ok d =>
    obtain ⟨h1, h2⟩ := dispatch_ok_fields env (parse_intent raw)
      (parse_intent_intent_mem raw) d hd
    refine ⟨?_, fun hne => ?_, fun e2 he2 => ?_⟩
    · rw [hex]
      exact h1
    · rw [hex]
      exact h2 hne
    · exact Except.noConfusion he2

/-- C2 counterexample: on input `"clean"` (intent `optimize_system`, all
collaborators benign) `execute_command` returns the dev-api envelope, which
contains no `handler` field — refuting the claim that every result record
contains a string `handler`. -/
theorem execute_command_optimize_missing_handler :
    execute_command simEnv "clean" =
      [("ok", .b false), ("method", .s "system"),
       ("detail", .s "Optimization blocked or simulated"), ("meta", .pdict [])] ∧
    pdLookup (execute_command simEnv "clean") "handler" = none :=
  ⟨rfl, rfl⟩

theorem execute_command_result_shape_witness :
    (∃ hs, pdLookup (execute_command simEnv "open x") "handler" = some (.s hs)) ∧
    execute_command raisingEnv "whatsapp msg hi" =
      [("ok", .b false), ("handler", .s "error"), ("error", .s "boom")] :=
  ⟨(execute_command_result_shape simEnv "open x").2.1 (by decide),
   (execute_command_result_shape raisingEnv "whatsapp msg hi").2.2 "boom" rfl⟩
